import Mathlib

/-!
# Verification of the Smart Document Analyser core

Shallow embedding of the analysis engine of the repository:

* `src/backend/src/services/aiService.ts` — `AIService.analyzeDocument`,
  `AIService.generateSimulatedAnalysis`, `AIService.generateEmbeddings`;
* `src/backend/src/models/Topic.ts` — `addTimelineEntry`;
* `src/backend/src/models/User.ts` — the document pre-save embedding
  validation hook and `calculateSimilarity`;
* `src/backend/src/routes/documents.ts` — `processDocumentAI`.

Modelling conventions: JavaScript numbers are embedded as `ℚ` (exact
arithmetic; none of the verified properties depends on rounding of
IEEE doubles), `NaN` is embedded as `none : Option ℚ` where it can
arise, strings as Lean `String`/`List Char` (`toLowerCase` is modelled
by `Char.toLower`, and the `\s` / `\w` regex classes by their ASCII
meaning, which covers every string the claims quantify over).  The
remote OpenAI collaborator, `JSON.parse`, and `Math.random` are
modelled as oracles supplied in an environment record: the code under
verification is exactly the branching and post-processing the
TypeScript performs around those calls.
-/

/-! ## JavaScript string primitives -/

/-- The ASCII part of the JavaScript `\s` regex class (whitespace). -/
def jsIsWs (c : Char) : Bool :=
  c = ' ' || c = '\t' || c = '\n' || c = '\r' || c = '\x0b' || c = '\x0c'

/-- The JavaScript `\w` regex class: `[A-Za-z0-9_]`. -/
def jsIsWordChar (c : Char) : Bool :=
  c.isAlphanum || c = '_'

/-- Auxiliary worker for `jsSplitWs`: `cur` is the chunk read so far,
reversed, and the boolean records whether the previous character was
whitespace, so that a maximal whitespace run counts as one separator
(a chunk is emitted at the first character of the run and the rest of
the run is absorbed). -/
def jsSplitWsGo : List Char → List Char → Bool → List (List Char)
  | [], cur, _ => [cur.reverse]
  | c :: cs, cur, inSep =>
    if jsIsWs c then
      if inSep then jsSplitWsGo cs [] true
      else cur.reverse :: jsSplitWsGo cs [] true
    else
      jsSplitWsGo cs (c :: cur) false

/-- `text.split(/\s+/)` of JavaScript: splits on maximal whitespace
runs; an empty input yields `[""]` and leading/trailing whitespace
yields an empty first/last chunk, exactly as in JavaScript (the code
counts words with `text.split(/\s+/).length`, so these fringe chunks
matter). -/
def jsSplitWs (l : List Char) : List (List Char) :=
  jsSplitWsGo l [] false

/-- `text.split(/\s+/).length`, the word count used by
`analyzeDocument` and `generateSimulatedAnalysis`
(`aiService.ts:145,183`). -/
def jsWordCount (text : String) : ℕ :=
  (jsSplitWs text.data).length

/-- `Math.ceil(wordCount / 200)` on natural `wordCount`
(`aiService.ts:146,184`). -/
def readingTimeOf (wordCount : ℕ) : ℕ :=
  (wordCount + 199) / 200

/-- Does `pat` occur at the very start of `l`? -/
def leadsWith : List Char → List Char → Bool
  | [], _ => true
  | _ :: _, [] => false
  | a :: as, b :: bs => a = b && leadsWith as bs

/-- Number of matches of `lowerText.match(new RegExp(word, 'g'))`:
non-overlapping occurrences of `pat` in `l`, scanning left to right
(`aiService.ts:209-210`; the sentiment word lists contain no regex
metacharacters, so the regex is a plain substring search). -/
def countOccur (pat : List Char) : List Char → ℕ
  | [] => 0
  | c :: rest =>
    if leadsWith pat (c :: rest) then
      1 + countOccur pat (rest.drop (pat.length - 1))
    else
      countOccur pat rest
termination_by l => l.length
decreasing_by
  · exact Nat.lt_succ_of_le (by rw [List.length_drop]; omega)
  · exact Nat.lt_succ_self rest.length

/-- JavaScript `v || default` for an optional string field: `undefined`
and the empty string are falsy. -/
def jsOrS (v : Option String) (d : String) : String :=
  match v with
  | none => d
  | some s => if s = "" then d else s

/-- JavaScript `v || default` for an optional numeric field coming out
of `JSON.parse`: `undefined` and `0` are falsy (`JSON.parse` can
produce neither `NaN` nor `undefined` inside a parsed value, so
`Option ℚ` is exact here). -/
def jsOrQ (v : Option ℚ) (d : ℚ) : ℚ :=
  match v with
  | none => d
  | some q => if q = 0 then d else q

/-- `!process.env.OPENAI_API_KEY || process.env.OPENAI_API_KEY ===
'your-openai-api-key-here'` (`aiService.ts:72,252`): unset and empty
keys are falsy, and the checked-in placeholder is rejected. -/
def configMissing : Option String → Bool
  | none => true
  | some s => s = "" || s = "your-openai-api-key-here"

/-! ## The simulated analyzer (`AIService.generateSimulatedAnalysis`) -/

/-- The fixed stopword set of `aiService.ts:187`. -/
def commonWords : List String :=
  ["the", "a", "an", "and", "or", "but", "in", "on", "at", "to", "for",
   "of", "with", "by", "is", "are", "was", "were", "be", "been", "have",
   "has", "had", "do", "does", "did", "will", "would", "could", "should",
   "may", "might", "can", "this", "that", "these", "those"]

/-- The fixed positive word list of `aiService.ts:205`. -/
def positiveWords : List String :=
  ["good", "great", "excellent", "amazing", "wonderful", "positive",
   "success", "achieve", "benefit", "improve"]

/-- The fixed negative word list of `aiService.ts:206`. -/
def negativeWords : List String :=
  ["bad", "terrible", "awful", "negative", "fail", "problem", "issue",
   "difficult", "challenge", "concern"]

/-- `text.toLowerCase().replace(/[^\w\s]/g, '').split(/\s+/).filter(word
=> word.length > 3 && !commonWords.has(word))` (`aiService.ts:189-192`). -/
def tokenize (text : String) : List String :=
  (((jsSplitWs ((text.data.map Char.toLower).filter
      (fun c => jsIsWordChar c || jsIsWs c))).map
    (fun cs => String.mk cs)).filter
    (fun w => decide (w.length > 3) && !(commonWords.contains w)))

/-- One step of building `wordFreq` (`aiService.ts:194-197`):
`wordFreq[word] = (wordFreq[word] || 0) + 1`.  The table is kept as an
association list in key-insertion order: an existing key is
incremented in place, a new key is appended at the end.  Insertion
order is only part of the story for enumeration — `Object.entries`
reorders array-index-like keys; see `jsObjectEntries`. -/
def bump : List (String × ℕ) → String → List (String × ℕ)
  | [], w => [(w, 1)]
  | (k, c) :: rest, w =>
    if k = w then (k, c + 1) :: rest else (k, c) :: bump rest w

/-- The `wordFreq` object after the `forEach` loop
(`aiService.ts:194-197`), as an association list in key-insertion
(first-occurrence) order. -/
def wordFreqTable (ws : List String) : List (String × ℕ) :=
  ws.foldl bump []

/-- The numeric value of an all-digit string. -/
def digitsToNat (s : String) : ℕ :=
  s.data.foldl (fun acc c => acc * 10 + (c.toNat - Char.toNat '0')) 0

/-- Is this string an ECMAScript *array index* property key: the
canonical decimal representation (no leading zeros, except `"0"`
itself) of an integer in `[0, 2^32 - 2]`?  Such keys are enumerated
before all string keys, in ascending numeric order. -/
def isArrayIndex (s : String) : Bool :=
  (decide (s.data ≠ []) && s.data.all Char.isDigit) &&
  (decide (s = "0") || decide (s.data.head? ≠ some '0')) &&
  decide (digitsToNat s < 4294967295)

/-- The descending-by-key comparison used to model a stable JavaScript
`sort`: `a` may precede `b` iff `key b ≤ key a`.  `Array.prototype.sort`
is stable (ECMA-262), and `List.insertionSort` with this relation
inserts every element before its ties among later-ranked elements —
the same stable descending order. -/
def keyGe {α : Type} {κ : Type} [LinearOrder κ] (k : α → κ) (a b : α) : Prop :=
  k b ≤ k a

instance {α κ : Type} [LinearOrder κ] (k : α → κ) : DecidableRel (keyGe k) :=
  fun a b => inferInstanceAs (Decidable (k b ≤ k a))

instance {α κ : Type} [LinearOrder κ] (k : α → κ) : IsTotal α (keyGe k) :=
  ⟨fun a b => le_total (k b) (k a)⟩

instance {α κ : Type} [LinearOrder κ] (k : α → κ) : IsTrans α (keyGe k) :=
  ⟨fun _ _ _ h1 h2 => le_trans h2 h1⟩

/-- The ascending-by-key comparison: `a` may precede `b` iff
`key a ≤ key b`. -/
def keyLe {α : Type} {κ : Type} [LinearOrder κ] (k : α → κ) (a b : α) : Prop :=
  k a ≤ k b

instance {α κ : Type} [LinearOrder κ] (k : α → κ) : DecidableRel (keyLe k) :=
  fun a b => inferInstanceAs (Decidable (k a ≤ k b))

instance {α κ : Type} [LinearOrder κ] (k : α → κ) : IsTotal α (keyLe k) :=
  ⟨fun a b => le_total (k a) (k b)⟩

instance {α κ : Type} [LinearOrder κ] (k : α → κ) : IsTrans α (keyLe k) :=
  ⟨fun _ _ _ h1 h2 => le_trans h1 h2⟩

/-- `Object.entries(obj)` for a table of string keys (ECMA-262,
OrdinaryOwnPropertyKeys): the array-index-like keys come first, in
ascending numeric order, followed by the remaining string keys in
insertion order.  The array-index keys of a table are pairwise
distinct canonical numerals, so ascending numeric order determines
their order completely. -/
def jsObjectEntries (tbl : List (String × ℕ)) : List (String × ℕ) :=
  List.insertionSort (keyLe (fun e => digitsToNat e.1))
      (tbl.filter (fun e => isArrayIndex e.1)) ++
    tbl.filter (fun e => !(isArrayIndex e.1))

/-- `Object.entries(wordFreq)` after the `forEach` loop
(`aiService.ts:194-199`): the `(word, count)` pairs with
array-index-like words (all-digit tokens such as `"2024"`) first in
ascending numeric order, then the remaining words in first-occurrence
order. -/
def freqEntries (ws : List String) : List (String × ℕ) :=
  jsObjectEntries (wordFreqTable ws)

/-- `Object.entries(wordFreq).sort(([,a],[,b]) => b - a)`
(`aiService.ts:199-200`): stable sort, descending by count. -/
def rankedEntries (text : String) : List (String × ℕ) :=
  List.insertionSort (keyGe Prod.snd) (freqEntries (tokenize text))

/-- `.slice(0, 8).map(([word]) => word)` (`aiService.ts:201-202`). -/
def simKeywords (text : String) : List String :=
  ((rankedEntries text).take 8).map Prod.fst

/-- Total occurrence count of a fixed word list in the lowercased text
(`aiService.ts:209-210`). -/
def sentimentHits (wordList : List String) (text : String) : ℕ :=
  (wordList.map (fun w => countOccur w.data (text.data.map Char.toLower))).sum

structure Summary where
  short : String
  medium : String
  detailed : String
deriving DecidableEq

structure Sentiment where
  score : ℚ
  label : String
  confidence : ℚ
deriving DecidableEq

structure Entity where
  name : String
  typ : String
  confidence : ℚ
deriving DecidableEq

/-- The `DocumentAnalysis` interface of `aiService.ts:10-31`.
`complexity` and `label` are typed as strings: their TypeScript union
types are not enforced at runtime on values coming from `JSON.parse`. -/
structure DocumentAnalysis where
  summary : Summary
  sentiment : Sentiment
  keywords : List String
  topics : List String
  entities : List Entity
  readingTime : ℕ
  complexity : String
  language : String
deriving DecidableEq

/-- The simulated sentiment triple of `aiService.ts:212-221`. -/
def simSentiment (text : String) : Sentiment :=
  let p : ℕ := sentimentHits positiveWords text
  let n : ℕ := sentimentHits negativeWords text
  if p > n then
    { score := min ((4 : ℚ) / 5) ((p : ℚ) / ((p : ℚ) + (n : ℚ) + 1)),
      label := "positive", confidence := 7 / 10 }
  else if n > p then
    { score := -(min ((4 : ℚ) / 5) ((n : ℚ) / ((p : ℚ) + (n : ℚ) + 1))),
      label := "negative", confidence := 7 / 10 }
  else
    { score := 0, label := "neutral", confidence := 7 / 10 }

/-- `AIService.generateSimulatedAnalysis` (`aiService.ts:182-243`),
the deterministic fallback analyzer. -/
def generateSimulatedAnalysis (text : String) (fileName : Option String) :
    DocumentAnalysis :=
  let wordCount := jsWordCount text
  let readingTime := readingTimeOf wordCount
  let keywords := simKeywords text
  let sentiment := simSentiment text
  let fn := jsOrS fileName "document"
  let fnEnt := jsOrS fileName "Document"
  { summary :=
      { short := s!"Analysis of {fn} containing {wordCount} words.",
        medium := s!"This document contains {wordCount} words and appears to be {sentiment.label} in tone. Key topics include analysis and content processing.",
        detailed := s!"This document has been processed and analyzed. It contains {wordCount} words with an estimated reading time of {readingTime} minutes. The content appears to have a {sentiment.label} sentiment with key themes related to the extracted keywords and topics." },
    sentiment := sentiment,
    keywords := keywords,
    topics := keywords.take 3,
    entities := [{ name := fnEnt, typ := "MISC", confidence := 4 / 5 }],
    readingTime := readingTime,
    complexity :=
      if wordCount > 1000 then "complex"
      else if wordCount > 300 then "moderate" else "simple",
    language := "en" }

/-! ## The analysis engine (`AIService.analyzeDocument`) -/

/-- The loosely-typed shape of `analysis.summary` after `JSON.parse`. -/
structure RawSummary where
  short : Option String
  medium : Option String
  detailed : Option String
deriving DecidableEq

/-- The loosely-typed shape of `analysis.sentiment` after `JSON.parse`. -/
structure RawSentiment where
  score : Option ℚ
  label : Option String
  confidence : Option ℚ
deriving DecidableEq

/-- The loosely-typed value produced by `JSON.parse` on the completion
text (`aiService.ts:136-142`): every field is optional; a list field is
`none` when the parsed value is not an array (`Array.isArray`). -/
structure RawAnalysis where
  summary : Option RawSummary
  sentiment : Option RawSentiment
  keywords : Option (List String)
  topics : Option (List String)
  entities : Option (List Entity)
  complexity : Option String
  language : Option String
deriving DecidableEq

/-- The environment of external collaborators of `AIService`:
the configured API key, the outcome of the single chat-completion call
(`Except.error` = the provider threw; `Option String` =
`completion.choices[0]?.message?.content`), the `JSON.parse` oracle
(`none` = a `SyntaxError` was thrown), the outcome of the single
embeddings call as a function of the (truncated) input sent
(`Option (List ℚ)` = `response.data[0]?.embedding`), and the stream of
`Math.random()` draws. -/
structure AIEnv where
  apiKey : Option String
  completion : Except Unit (Option String)
  parse : String → Option RawAnalysis
  embedResp : String → Except Unit (Option (List ℚ))
  rand : ℕ → ℚ

/-- `AIService.analyzeDocument` (`aiService.ts:69-174`).  The whole
body is inside `try`/`catch` with the catch returning the simulated
analysis, so the function is total: it never throws to its caller. -/
def analyzeDocument (env : AIEnv) (text : String) (fileName : Option String) :
    DocumentAnalysis :=
  if configMissing env.apiKey then
    generateSimulatedAnalysis text fileName
  else
    match env.completion with
    | .error _ => generateSimulatedAnalysis text fileName
    | .ok content =>
      match content with
      | none => generateSimulatedAnalysis text fileName
      | some s =>
        if s = "" then generateSimulatedAnalysis text fileName
        else
          match env.parse s with
          | none => generateSimulatedAnalysis text fileName
          | some raw =>
            let wordCount := jsWordCount text
            { summary :=
                { short := jsOrS (raw.summary.bind RawSummary.short)
                    "Summary not available",
                  medium := jsOrS (raw.summary.bind RawSummary.medium)
                    "Summary not available",
                  detailed := jsOrS (raw.summary.bind RawSummary.detailed)
                    "Summary not available" },
              sentiment :=
                { score := jsOrQ (raw.sentiment.bind RawSentiment.score) 0,
                  label := jsOrS (raw.sentiment.bind RawSentiment.label)
                    "neutral",
                  confidence :=
                    jsOrQ (raw.sentiment.bind RawSentiment.confidence)
                      (1 / 2) },
              keywords := (raw.keywords.getD []).take 10,
              topics := (raw.topics.getD []).take 5,
              entities := (raw.entities.getD []).take 10,
              readingTime := readingTimeOf wordCount,
              complexity := jsOrS raw.complexity "moderate",
              language := jsOrS raw.language "en" }

/-- The failure modes of the remote inference path
(`aiService.ts:72,114-142`): missing/placeholder key, provider throw,
missing or empty completion content, or a completion that is not valid
JSON.  On each of these `analyzeDocument` falls back. -/
def remoteFails (env : AIEnv) : Prop :=
  configMissing env.apiKey = true ∨
  env.completion = .error () ∨
  env.completion = .ok none ∨
  env.completion = .ok (some "") ∨
  ∃ s, env.completion = .ok (some s) ∧ s ≠ "" ∧ env.parse s = none

/-- The `sentiment` data-model constraint of the specification:
score in `[-1, 1]`, label one of the three tags, confidence in `[0, 1]`. -/
def sentimentValid (s : Sentiment) : Prop :=
  -1 ≤ s.score ∧ s.score ≤ 1 ∧
  (s.label = "positive" ∨ s.label = "negative" ∨ s.label = "neutral") ∧
  0 ≤ s.confidence ∧ s.confidence ≤ 1

instance (s : Sentiment) : Decidable (sentimentValid s) := by
  unfold sentimentValid; infer_instance

/-! ## The embedding service (`AIService.generateEmbeddings`) -/

/-- `text.substring(0, 8000)` (`aiService.ts:259`). -/
def truncateChars (n : ℕ) (text : String) : String :=
  String.mk (text.data.take n)

/-- `Array.from({length: 1536}, () => Math.random() * 2 - 1)`
(`aiService.ts:254,266`): 1536 successive draws from the random
stream, each mapped through `r * 2 - 1`. -/
def fallbackEmbedding (rand : ℕ → ℚ) : List ℚ :=
  (List.range 1536).map (fun i => rand i * 2 - 1)

/-- `AIService.generateEmbeddings` (`aiService.ts:250-268`).  On a
missing key or a thrown embeddings call it returns the random fallback
vector; on a successful call it returns
`response.data[0]?.embedding || []` unchanged. -/
def generateEmbeddings (env : AIEnv) (text : String) : List ℚ :=
  if configMissing env.apiKey then
    fallbackEmbedding env.rand
  else
    match env.embedResp (truncateChars 8000 text) with
    | .error _ => fallbackEmbedding env.rand
    | .ok r => r.getD []

/-! ## Cosine similarity (`documentSchema.methods.calculateSimilarity`) -/

/-- JavaScript addition where `none` stands for `NaN`. -/
def jadd : Option ℚ → Option ℚ → Option ℚ
  | some x, some y => some (x + y)
  | _, _ => none

/-- JavaScript multiplication where `none` stands for `NaN`:
`undefined * x` is also `NaN`, so out-of-bounds reads feed in as `none`. -/
def jmul : Option ℚ → Option ℚ → Option ℚ
  | some x, some y => some (x * y)
  | _, _ => none

/-- `l[i]` in JavaScript: `undefined` (here `none`) when out of bounds. -/
def jget (l : List ℚ) (i : ℕ) : Option ℚ :=
  l.get? i

/-- The result of `calculateSimilarity`: a plain number, `NaN`, or the
value `dot / (Math.sqrt normA * Math.sqrt normB)` kept symbolically
(the square roots are irrational in general; no claim inspects this
value beyond its constructor). -/
inductive SimResult where
  | num (q : ℚ)
  | nan
  | cosine (dot normA normB : ℚ)
deriving DecidableEq

/-- The accumulation loop of `User.ts:665-669`, iterating `i` from the
given index over the first vector: returns
`(dotProduct, normA, normB)`.  Addition over `Option ℚ` is commutative
and associative with `none` absorbing, so accumulating by structural
recursion yields the same three values as the source's left-to-right
loop. -/
def simLoop (b : List ℚ) : List ℚ → ℕ → Option ℚ × Option ℚ × Option ℚ
  | [], _ => (some 0, some 0, some 0)
  | x :: xs, i =>
    let r := simLoop b xs (i + 1)
    (jadd (jmul (some x) (jget b i)) r.1,
     jadd (jmul (some x) (some x)) r.2.1,
     jadd (jmul (jget b i) (jget b i)) r.2.2)

/-- `documentSchema.methods.calculateSimilarity` (`User.ts:655-674`).
`none` embeddings model a falsy (`undefined`) field; note that an
empty array is truthy in JavaScript and does not take the early
return. -/
def calculateSimilarity (a b : Option (List ℚ)) : SimResult :=
  match a, b with
  | some la, some lb =>
    let acc := simLoop lb la 0
    if acc.2.1 = some 0 ∨ acc.2.2 = some 0 then .num 0
    else
      match acc.1, acc.2.1, acc.2.2 with
      | some d, some x, some y => .cosine d x y
      | _, _, _ => .nan
  | _, _ => .num 0

/-! ## The topic trend tracker (`Topic.ts`) -/

/-- A timeline entry (`Topic.ts:12-49`); `date` is the millisecond
timestamp `date.getTime()`. -/
structure TimelineEntry where
  documentId : String
  date : ℤ
  content : String
  relevanceScore : ℚ
  sentiment : ℚ
  keyQuotes : List String
deriving DecidableEq

structure TrendData where
  frequency : ℕ
  sentimentTrend : List ℚ
  popularityScore : ℤ
deriving DecidableEq

/-- The topic document (`Topic.ts:54-112`), restricted to its data
fields. -/
structure Topic where
  userId : String
  name : String
  keywords : List String
  documentIds : List String
  timeline : List TimelineEntry
  trendData : TrendData
  isActive : Bool
deriving DecidableEq

/-- `topicSchema.methods.addTimelineEntry` (`Topic.ts:135-150`):
push the entry, stable-sort descending by date, then recompute the
trend data.  `Math.round` in JavaScript is `⌊x + 1/2⌋`, which is
exactly Mathlib's `round`. -/
def addTimelineEntry (t : Topic) (e : TimelineEntry) : Topic :=
  let timeline :=
    List.insertionSort (keyGe TimelineEntry.date) (t.timeline ++ [e])
  let recent := timeline.take 5
  let avgSentiment : ℚ :=
    ((recent.map TimelineEntry.sentiment).sum) / (recent.length : ℚ)
  let activityScore : ℚ := min ((timeline.length : ℚ) * 2) 50
  let sentimentScore : ℚ := (avgSentiment + 1) * 25
  { t with
    timeline := timeline,
    trendData :=
      { frequency := timeline.length,
        sentimentTrend := (timeline.take 10).map TimelineEntry.sentiment,
        popularityScore := round (activityScore + sentimentScore) } }

/-- A sequence of `addTimelineEntry` calls. -/
def addEntries (t : Topic) (es : List TimelineEntry) : Topic :=
  es.foldl addTimelineEntry t

/-! ## The background processing pipeline (`documents.ts`) -/

inductive PStatus where
  | pending
  | processing
  | completed
  | failed
deriving DecidableEq

/-- The slice of a stored document that `processDocumentAI` touches,
plus `runs`, an instrumentation counter of how many times
`AIService.analyzeDocument` has been executed for this document. -/
structure DocState where
  status : PStatus
  analysis : Option DocumentAnalysis
  embeddings : Option (List ℚ)
  runs : ℕ
deriving DecidableEq

/-- The first store write of `processDocumentAI`
(`documents.ts:228-230`): `findByIdAndUpdate(documentId,
{processingStatus: 'processing'})` — an unconditional write, with no
condition on the current status. -/
def startProcessingWrite (d : DocState) : DocState :=
  { d with status := .processing }

/-- `processDocumentAI` (`documents.ts:223-264`), with the store
updates applied in order.  Every store update is a mongoose
`findByIdAndUpdate`, a query update that writes the given fields
directly and runs no `pre('save')` document middleware — in
particular the final write stores the embeddings vector with no
dimension check.  `analyzeDocument` and `generateEmbeddings` are
total (they catch provider failures internally), so the success path
always runs to the `completed` write; the `catch` branch concerns
storage failures, which are not modelled (every claim here is about
the status/analysis/embeddings write semantics, with storage up). -/
def processDocumentAI (env : AIEnv) (text : String) (fileName : Option String)
    (d : DocState) : DocState :=
  let d1 := startProcessingWrite d
  let analysis := analyzeDocument env text fileName
  let emb := generateEmbeddings env text
  { d1 with
    status := .completed,
    analysis := some analysis,
    embeddings := some emb,
    runs := d1.runs + 1 }

/-! ## Document persistence hooks (`User.ts`) -/

/-- The slice of the mongoose document relevant to the pre-save hooks;
`wordCountModified` models `this.isModified('wordCount')`. -/
structure StoredDoc where
  wordCount : ℕ
  readingTime : ℕ
  wordCountModified : Bool
  embeddings : Option (List ℚ)
  processingStatus : PStatus
deriving DecidableEq

/-- The reading-time pre-save hook (`User.ts:629-636`):
`Math.ceil(wordCount / 225)`. -/
def preSaveReadingTime (d : StoredDoc) : StoredDoc :=
  if d.wordCountModified then
    { d with readingTime := (d.wordCount + 224) / 225 }
  else d

/-- The error message of `User.ts:644`. -/
def dimensionErrorMsg : String :=
  "Embeddings vector must be exactly 1536 dimensions for OpenAI embeddings"

/-- The embedding-dimension pre-save hook (`User.ts:641-648`):
`if (this.embeddings && this.embeddings.length > 0 &&
this.embeddings.length !== 1536) next(new Error(...))`. -/
def preSaveEmbeddingsCheck (embeddings : Option (List ℚ)) :
    Except String Unit :=
  match embeddings with
  | none => .ok ()
  | some e =>
    if e.length > 0 ∧ e.length ≠ 1536 then .error dimensionErrorMsg
    else .ok ()

/-- `document.save()`: runs the two pre-save middlewares in order; an
error passed to `next` aborts the save, so nothing is stored. -/
def saveDocument (d : StoredDoc) : Except String StoredDoc :=
  let d1 := preSaveReadingTime d
  match preSaveEmbeddingsCheck d1.embeddings with
  | .error m => .error m
  | .ok _ => .ok d1

/-! ## Specification-side definitions (for the refinement claims) -/

/-- Worker for `dedupFirst`: drops every element already in `seen`,
keeping the first occurrence of each new element in order. -/
def dedupFirstAux {α : Type} [DecidableEq α] (seen : List α) : List α → List α
  | [] => []
  | x :: xs =>
    if x ∈ seen then dedupFirstAux seen xs
    else x :: dedupFirstAux (x :: seen) xs

/-- Keep the first occurrence of every element, in order — the
specification's "first-occurrence order" universe of distinct tokens. -/
def dedupFirst {α : Type} [DecidableEq α] (l : List α) : List α :=
  dedupFirstAux [] l

/-- The keyword universe of the original claim: the distinct tokens of
the text in first-occurrence order, each with its occurrence count. -/
def specEntries (text : String) : List (String × ℕ) :=
  (dedupFirst (tokenize text)).map
    (fun w => (w, (tokenize text).count w))

/-- The specification-side reading of the real enumeration order of
the frequency table: the distinct array-index-like tokens in ascending
numeric order, then the remaining distinct tokens in first-occurrence
order, each with its occurrence count. -/
def specEntriesEnum (text : String) : List (String × ℕ) :=
  (List.insertionSort (keyLe digitsToNat)
      ((dedupFirst (tokenize text)).filter (fun w => isArrayIndex w)) ++
    (dedupFirst (tokenize text)).filter (fun w => !(isArrayIndex w))).map
    (fun w => (w, (tokenize text).count w))

/-! ## Concrete fixtures used by counterexamples and witnesses -/

/-- A configured environment whose embeddings call succeeds but whose
response carries no `data[0].embedding` — a shape the code explicitly
anticipates with `response.data[0]?.embedding || []`. -/
def envEmbedOkEmpty : AIEnv :=
  { apiKey := some "sk-test",
    completion := .error (),
    parse := fun _ => none,
    embedResp := fun _ => .ok none,
    rand := fun _ => 0 }

/-- A configured environment whose embeddings call succeeds with a
100-dimensional vector — the provider's vector is trusted unchecked
(see C1). -/
def envEmbed100 : AIEnv :=
  { apiKey := some "sk-test",
    completion := .error (),
    parse := fun _ => none,
    embedResp := fun _ => .ok (some (List.replicate 100 (0 : ℚ))),
    rand := fun _ => 0 }

/-- An environment with no API key configured (every remote path is
skipped). -/
def envKeyMissing : AIEnv :=
  { apiKey := none,
    completion := .error (),
    parse := fun _ => none,
    embedResp := fun _ => .error (),
    rand := fun _ => 1 / 2 }

/-- A parsed completion whose sentiment fields are present but violate
the data model (score 5, an unknown label, confidence 2) — all valid
JSON the remote provider could return. -/
def rawBadSentiment : RawAnalysis :=
  { summary := none,
    sentiment := some { score := some 5, label := some "great", confidence := some 2 },
    keywords := none,
    topics := none,
    entities := none,
    complexity := none,
    language := none }

/-- A configured environment whose completion parses to
`rawBadSentiment`. -/
def envBadSentiment : AIEnv :=
  { apiKey := some "sk-test",
    completion := .ok (some "j"),
    parse := fun _ => some rawBadSentiment,
    embedResp := fun _ => .error (),
    rand := fun _ => 0 }

/-- A freshly uploaded document record: `pending`, nothing analysed. -/
def docPending : DocState :=
  { status := .pending, analysis := none, embeddings := none, runs := 0 }

/-- A fresh topic with an empty timeline. -/
def emptyTopic : Topic :=
  { userId := "u", name := "topic", keywords := [], documentIds := [],
    timeline := [],
    trendData := { frequency := 0, sentimentTrend := [], popularityScore := 0 },
    isActive := true }

/-- A timeline entry with the given date and sentiment. -/
def mkEntry (date : ℤ) (sentiment : ℚ) : TimelineEntry :=
  { documentId := "doc", date := date, content := "content",
    relevanceScore := 1, sentiment := sentiment, keyQuotes := [] }

/-- A stored document carrying a 100-dimensional embeddings vector. -/
def storedDoc100 : StoredDoc :=
  { wordCount := 10, readingTime := 0, wordCountModified := false,
    embeddings := some (List.replicate 100 (0 : ℚ)),
    processingStatus := .pending }

/-- A stored document whose embeddings array is empty (the stored
representation of "absent"). -/
def storedDocEmptyEmb : StoredDoc :=
  { wordCount := 10, readingTime := 0, wordCountModified := false,
    embeddings := some [],
    processingStatus := .pending }

/-! ## Helper lemmas: stability of the modelled JavaScript sort -/

/-- Inserting `x` with `orderedInsert (keyGe k)` does not disturb any
key class: the elements whose key is `c` end up exactly as in `x :: l`.
This is the tie-stability of the modelled JavaScript sort. -/
theorem filter_keyClass_orderedInsert {α κ : Type} [LinearOrder κ] (k : α → κ)
    (x : α) (l : List α) (c : κ) :
    (List.orderedInsert (keyGe k) x l).filter (fun a => decide (k a = c)) =
      (x :: l).filter (fun a => decide (k a = c)) := by
  induction l with
  | nil => rfl
  | cons y ys ih =>
    by_cases h : keyGe k x y
    · rw [List.orderedInsert, if_pos h]
    · rw [List.orderedInsert, if_neg h]
      have hxy : k x < k y := not_le.mp h
      by_cases hy : k y = c
      · have hx : ¬ (k x = c) := by
          intro hc
          rw [hc, ← hy] at hxy
          exact lt_irrefl _ hxy
        simp [List.filter_cons, hy, hx, ih]
      · simp [List.filter_cons, hy, ih]

/-- Stability of the full sort: every key class of the sorted list
reads exactly as in the input list. -/
theorem filter_keyClass_insertionSort {α κ : Type} [LinearOrder κ] (k : α → κ)
    (l : List α) (c : κ) :
    (List.insertionSort (keyGe k) l).filter (fun a => decide (k a = c)) =
      l.filter (fun a => decide (k a = c)) := by
  induction l with
  | nil => rfl
  | cons x xs ih =>
    rw [List.insertionSort, filter_keyClass_orderedInsert]
    simp [List.filter_cons, ih]

/-- C4 — `addTimelineEntry` inserts the entry, stable-sorts the
timeline descending by date (equal dates keep their relative order),
sets `frequency` to the post-insert length, `sentimentTrend` to the
sentiments of the 10 most recent entries in post-sort order, and
`popularityScore` to `round(min(len*2, 50) + (avg+1)*25)` with `avg`
the mean sentiment of the up-to-5 most recent entries. -/
theorem addTimelineEntry_spec (t : Topic) (e : TimelineEntry) :
    (addTimelineEntry t e).timeline.Perm (t.timeline ++ [e]) ∧
    (addTimelineEntry t e).timeline.Pairwise (fun a b => b.date ≤ a.date) ∧
    (∀ d : ℤ, (addTimelineEntry t e).timeline.filter (fun x => decide (x.date = d)) =
        (t.timeline ++ [e]).filter (fun x => decide (x.date = d))) ∧
    (addTimelineEntry t e).trendData.frequency =
      (addTimelineEntry t e).timeline.length ∧
    (addTimelineEntry t e).trendData.sentimentTrend =
      ((addTimelineEntry t e).timeline.take 10).map TimelineEntry.sentiment ∧
    (addTimelineEntry t e).trendData.popularityScore =
      round (min (((addTimelineEntry t e).timeline.length : ℚ) * 2) 50 +
        ((((addTimelineEntry t e).timeline.take 5).map TimelineEntry.sentiment).sum /
          (((addTimelineEntry t e).timeline.take 5).length : ℚ) + 1) * 25) := by
  refine ⟨List.perm_insertionSort _ _, ?_, ?_, rfl, rfl, rfl⟩
  · exact List.sorted_insertionSort (keyGe TimelineEntry.date) (t.timeline ++ [e])
  · intro d
    exact filter_keyClass_insertionSort TimelineEntry.date (t.timeline ++ [e]) d

/-! ## Helper lemmas: the word-frequency table -/

theorem mem_dedupFirstAux {α : Type} [DecidableEq α] (seen l : List α) (a : α) :
    a ∈ dedupFirstAux seen l ↔ (a ∈ l ∧ a ∉ seen) := by
  induction l generalizing seen with
  | nil => simp [dedupFirstAux]
  | cons x xs ih =>
    rw [dedupFirstAux]
    by_cases hx : x ∈ seen
    · rw [if_pos hx, ih]
      by_cases hax : a = x
      · subst hax
        simp [hx]
      · simp [List.mem_cons, hax]
    · rw [if_neg hx]
      by_cases hax : a = x
      · subst hax
        simp [List.mem_cons, hx]
      · simp [List.mem_cons, ih, hax]

theorem nodup_dedupFirstAux {α : Type} [DecidableEq α] (seen l : List α) :
    (dedupFirstAux seen l).Nodup := by
  induction l generalizing seen with
  | nil => simp [dedupFirstAux]
  | cons x xs ih =>
    rw [dedupFirstAux]
    by_cases hx : x ∈ seen
    · rw [if_pos hx]
      exact ih seen
    · rw [if_neg hx]
      refine List.nodup_cons.mpr ⟨?_, ih (x :: seen)⟩
      rw [mem_dedupFirstAux]
      simp [List.mem_cons]

theorem dedupFirstAux_append_singleton {α : Type} [DecidableEq α]
    (seen l : List α) (x : α) :
    dedupFirstAux seen (l ++ [x]) =
      if x ∈ seen ∨ x ∈ l then dedupFirstAux seen l
      else dedupFirstAux seen l ++ [x] := by
  induction l generalizing seen with
  | nil =>
    by_cases hx : x ∈ seen
    · simp [dedupFirstAux, hx]
    · simp [dedupFirstAux, hx]
  | cons y ys ih =>
    rw [List.cons_append, dedupFirstAux]
    by_cases hy : y ∈ seen
    · rw [if_pos hy, ih seen]
      have hys : dedupFirstAux seen (y :: ys) = dedupFirstAux seen ys := by
        rw [dedupFirstAux, if_pos hy]
      rw [hys]
      by_cases hxy : x = y
      · subst hxy
        simp [hy]
      · simp [List.mem_cons, hxy]
    · rw [if_neg hy, ih (y :: seen)]
      have hys : dedupFirstAux seen (y :: ys) = y :: dedupFirstAux (y :: seen) ys := by
        rw [dedupFirstAux, if_neg hy]
      rw [hys]
      by_cases hc : x = y ∨ x ∈ seen ∨ x ∈ ys
      · have h1 : x ∈ y :: seen ∨ x ∈ ys := by
          rcases hc with h | h | h
          · exact Or.inl (by rw [h]; exact List.mem_cons_self y seen)
          · exact Or.inl (List.mem_cons_of_mem y h)
          · exact Or.inr h
        have h2 : x ∈ seen ∨ x ∈ y :: ys := by
          rcases hc with h | h | h
          · exact Or.inr (by rw [h]; exact List.mem_cons_self y ys)
          · exact Or.inl h
          · exact Or.inr (List.mem_cons_of_mem y h)
        rw [if_pos h1, if_pos h2]
      · push_neg at hc
        have h1 : ¬ (x ∈ y :: seen ∨ x ∈ ys) := by
          rintro (h | h)
          · rcases List.mem_cons.mp h with h2 | h2
            · exact hc.1 h2
            · exact hc.2.1 h2
          · exact hc.2.2 h
        have h2 : ¬ (x ∈ seen ∨ x ∈ y :: ys) := by
          rintro (h | h)
          · exact hc.2.1 h
          · rcases List.mem_cons.mp h with h2 | h2
            · exact hc.1 h2
            · exact hc.2.2 h2
        rw [if_neg h1, if_neg h2, List.cons_append]

theorem mem_dedupFirst {α : Type} [DecidableEq α] (l : List α) (a : α) :
    a ∈ dedupFirst l ↔ a ∈ l := by
  rw [dedupFirst, mem_dedupFirstAux]
  simp

theorem nodup_dedupFirst {α : Type} [DecidableEq α] (l : List α) :
    (dedupFirst l).Nodup :=
  nodup_dedupFirstAux [] l

theorem dedupFirst_append_singleton {α : Type} [DecidableEq α]
    (l : List α) (x : α) :
    dedupFirst (l ++ [x]) =
      if x ∈ l then dedupFirst l else dedupFirst l ++ [x] := by
  rw [dedupFirst, dedupFirstAux_append_singleton]
  simp [dedupFirst]

theorem count_append_singleton (l : List String) (x w : String) :
    (l ++ [x]).count w = l.count w + if w = x then 1 else 0 := by
  rw [List.count_append]
  by_cases h : w = x <;> simp [h, List.count_singleton]

theorem bump_not_mem (d : List String) (f : String → ℕ) (x : String)
    (hx : x ∉ d) :
    bump (d.map (fun w => (w, f w))) x = d.map (fun w => (w, f w)) ++ [(x, 1)] := by
  induction d with
  | nil => rfl
  | cons w ws ih =>
    have hwx : ¬ (w = x) := fun h => hx (h ▸ List.mem_cons_self w ws)
    rw [List.map_cons, bump, if_neg hwx,
      ih (fun h => hx (List.mem_cons_of_mem _ h)), List.cons_append]

theorem bump_mem (d : List String) (f : String → ℕ) (x : String)
    (hd : d.Nodup) (hx : x ∈ d) :
    bump (d.map (fun w => (w, f w))) x =
      d.map (fun w => (w, if w = x then f w + 1 else f w)) := by
  induction d with
  | nil => exact absurd hx (List.not_mem_nil x)
  | cons w ws ih =>
    by_cases hwx : w = x
    · rw [List.map_cons, bump, if_pos hwx, List.map_cons, if_pos hwx]
      have hxs : ∀ a ∈ ws, ¬ (a = x) := by
        intro a ha h
        exact (List.nodup_cons.mp hd).1 (hwx ▸ h ▸ ha)
      have : ws.map (fun w => (w, f w)) =
          ws.map (fun w => (w, if w = x then f w + 1 else f w)) := by
        apply List.map_congr_left
        intro a ha
        rw [if_neg (hxs a ha)]
      rw [this]
    · have hxw : x ∈ ws := by
        rcases List.mem_cons.mp hx with h | h
        · exact absurd h.symm hwx
        · exact h
      rw [List.map_cons, bump, if_neg hwx,
        ih (List.nodup_cons.mp hd).2 hxw, List.map_cons, if_neg hwx]

theorem wordFreqTable_concat (l : List String) (x : String) :
    wordFreqTable (l ++ [x]) = bump (wordFreqTable l) x := by
  rw [wordFreqTable, wordFreqTable, List.foldl_append]
  rfl

/-- The word-frequency object built by the `forEach` loop
(`aiService.ts:194-197`), read as an insertion-ordered association
list, is exactly the distinct words in first-occurrence order, each
with its total occurrence count. -/
theorem wordFreqTable_eq (l : List String) :
    wordFreqTable l = (dedupFirst l).map (fun w => (w, l.count w)) := by
  induction l using List.reverseRecOn with
  | nil => simp [wordFreqTable, dedupFirst, dedupFirstAux]
  | append_singleton l x ih =>
    rw [wordFreqTable_concat, ih, dedupFirst_append_singleton]
    by_cases hx : x ∈ l
    · rw [if_pos hx,
        bump_mem _ _ _ (nodup_dedupFirst l) ((mem_dedupFirst l x).mpr hx)]
      apply List.map_congr_left
      intro a _
      rw [count_append_singleton]
      by_cases hax : a = x <;> simp [hax]
    · rw [if_neg hx,
        bump_not_mem _ _ _ (fun h => hx ((mem_dedupFirst l x).mp h)),
        List.map_append]
      have h1 : (dedupFirst l).map (fun w => (w, l.count w)) =
          (dedupFirst l).map (fun w => (w, (l ++ [x]).count w)) := by
        apply List.map_congr_left
        intro a ha
        have hax : ¬ (a = x) := fun h =>
          hx (h ▸ (mem_dedupFirst l a).mp ha)
        rw [count_append_singleton, if_neg hax, Nat.add_zero]
      have h2 : (l ++ [x]).count x = 1 := by
        rw [count_append_singleton, if_pos rfl, List.count_eq_zero.mpr hx]
      rw [h1, List.map_cons, List.map_nil, h2]

/-! ## Helper lemmas: the `Object.entries` enumeration order -/

theorem orderedInsert_map {α β : Type} (r : α → α → Prop) [DecidableRel r]
    (s : β → β → Prop) [DecidableRel s] (f : α → β)
    (h : ∀ a b, s (f a) (f b) ↔ r a b) (x : α) (l : List α) :
    List.orderedInsert s (f x) (l.map f) = (List.orderedInsert r x l).map f := by
  induction l with
  | nil => rfl
  | cons y ys ih =>
    rw [List.map_cons, List.orderedInsert, List.orderedInsert]
    by_cases hr : r x y
    · rw [if_pos ((h x y).mpr hr), if_pos hr, List.map_cons, List.map_cons]
    · rw [if_neg (fun hs => hr ((h x y).mp hs)), if_neg hr, List.map_cons, ih]

theorem insertionSort_map {α β : Type} (r : α → α → Prop) [DecidableRel r]
    (s : β → β → Prop) [DecidableRel s] (f : α → β)
    (h : ∀ a b, s (f a) (f b) ↔ r a b) (l : List α) :
    List.insertionSort s (l.map f) = (List.insertionSort r l).map f := by
  induction l with
  | nil => rfl
  | cons x xs ih =>
    rw [List.map_cons, List.insertionSort, List.insertionSort, ih,
      orderedInsert_map r s f h]

theorem jsObjectEntries_map (d : List String) (g : String → ℕ) :
    jsObjectEntries (d.map (fun w => (w, g w))) =
      (List.insertionSort (keyLe digitsToNat)
          (d.filter (fun w => isArrayIndex w)) ++
        d.filter (fun w => !(isArrayIndex w))).map (fun w => (w, g w)) := by
  rw [jsObjectEntries, List.map_append]
  have h1 : (d.map (fun w => (w, g w))).filter (fun e => isArrayIndex e.1) =
      (d.filter (fun w => isArrayIndex w)).map (fun w => (w, g w)) := by
    rw [List.filter_map]
    rfl
  have h2 : (d.map (fun w => (w, g w))).filter (fun e => !(isArrayIndex e.1)) =
      (d.filter (fun w => !(isArrayIndex w))).map (fun w => (w, g w)) := by
    rw [List.filter_map]
    rfl
  rw [h1, h2,
    insertionSort_map (keyLe digitsToNat) (keyLe (fun e : String × ℕ => digitsToNat e.1))
      (fun w => (w, g w)) (fun a b => Iff.rfl)]

/-- `jsObjectEntries` only reorders the table. -/
theorem jsObjectEntries_perm (tbl : List (String × ℕ)) :
    (jsObjectEntries tbl).Perm tbl := by
  rw [jsObjectEntries]
  exact ((List.perm_insertionSort _ _).append_right _).trans
    (List.filter_append_perm _ tbl)

/-- `Object.entries(wordFreq)` on the tokenization is exactly the
specification-side enumeration: array-index-like tokens ascending
numerically, then the remaining tokens in first-occurrence order, each
with its occurrence count. -/
theorem freqEntries_tokenize_eq (text : String) :
    freqEntries (tokenize text) = specEntriesEnum text := by
  rw [freqEntries, wordFreqTable_eq, jsObjectEntries_map]
  rfl

/-- C7 (amended) — the simulated analyzer's keywords are the first 8
of the ranked keyword table and the topics the first 3 keywords, where
the ranking is a permutation of the frequency table sorted by
descending occurrence count, with every count class (the ties) kept in
the `Object.entries` enumeration order of the table: array-index-like
tokens (canonical all-digit strings such as `"2024"`) first in
ascending numeric order, then the remaining tokens in first-occurrence
order.  Ties are therefore *not* broken purely by first-occurrence
order (see the counterexample). -/
theorem simulated_keywords_enum_ranking (text : String) (fileName : Option String) :
    (generateSimulatedAnalysis text fileName).keywords =
      ((rankedEntries text).take 8).map Prod.fst ∧
    (generateSimulatedAnalysis text fileName).topics =
      (generateSimulatedAnalysis text fileName).keywords.take 3 ∧
    (rankedEntries text).Perm (specEntriesEnum text) ∧
    (rankedEntries text).Pairwise (fun a b => b.2 ≤ a.2) ∧
    (∀ c : ℕ, (rankedEntries text).filter (fun x => decide (x.2 = c)) =
        (specEntriesEnum text).filter (fun x => decide (x.2 = c))) := by
  refine ⟨rfl, rfl, ?_, ?_, ?_⟩
  · rw [rankedEntries, ← freqEntries_tokenize_eq]
    exact List.perm_insertionSort _ _
  · exact List.sorted_insertionSort (keyGe Prod.snd) (freqEntries (tokenize text))
  · intro c
    rw [rankedEntries, ← freqEntries_tokenize_eq]
    exact filter_keyClass_insertionSort Prod.snd (freqEntries (tokenize text)) c

/-- Counterexample to C7 as stated: in `"alpha alpha 2024 2024"` both
tokens occur twice, but `Object.entries` enumerates the array-index
key `"2024"` before the earlier-occurring `"alpha"`, and the stable
count sort keeps that order — the keywords are `["2024", "alpha"]`,
not the `["alpha", "2024"]` that first-occurrence tie-breaking (the
stable count sort of the first-occurrence table) would produce. -/
theorem simulated_keywords_tie_not_first_occurrence :
    (generateSimulatedAnalysis "alpha alpha 2024 2024" none).keywords =
      ["2024", "alpha"] ∧
    ((List.insertionSort (keyGe Prod.snd)
        (specEntries "alpha alpha 2024 2024")).take 8).map Prod.fst =
      ["alpha", "2024"] ∧
    (generateSimulatedAnalysis "alpha alpha 2024 2024" none).keywords ≠
      ((List.insertionSort (keyGe Prod.snd)
        (specEntries "alpha alpha 2024 2024")).take 8).map Prod.fst := by
  have h1 : (generateSimulatedAnalysis "alpha alpha 2024 2024" none).keywords =
      ["2024", "alpha"] := by
    with_unfolding_all rfl
  have h2 : ((List.insertionSort (keyGe Prod.snd)
      (specEntries "alpha alpha 2024 2024")).take 8).map Prod.fst =
      ["alpha", "2024"] := by
    with_unfolding_all rfl
  refine ⟨h1, h2, ?_⟩
  rw [h1, h2]
  intro h
  exact absurd h (by decide)

/-! ## C2 — the engine never fails and falls back to the simulator -/

/-- Helper: on every failure mode of the remote path,
`analyzeDocument` returns the simulated analysis. -/
theorem analyzeDocument_fallback_core (env : AIEnv) (text : String)
    (fileName : Option String) (h : remoteFails env) :
    analyzeDocument env text fileName = generateSimulatedAnalysis text fileName := by
  by_cases hk : configMissing env.apiKey
  · simp [analyzeDocument, hk]
  · rcases h with h | h | h | h | ⟨s, hc, hs, hp⟩
    · exact absurd h (by simpa using hk)
    · simp [analyzeDocument, hk, h]
    · simp [analyzeDocument, hk, h]
    · simp [analyzeDocument, hk, h]
    · simp [analyzeDocument, hk, hc, hs, hp]

/-- C2 — `analyzeDocument` is a total function (the TypeScript wraps
its whole body in `try`/`catch`), and on every failure mode of the
remote path — missing or placeholder key, provider throw, missing or
empty completion content, non-JSON payload — it returns exactly
`generateSimulatedAnalysis` of the same text and file-name hint. -/
theorem analyzeDocument_fallback_eq_simulated (env : AIEnv) (text : String)
    (fileName : Option String) (h : remoteFails env) :
    analyzeDocument env text fileName = generateSimulatedAnalysis text fileName :=
  analyzeDocument_fallback_core env text fileName h

/-- Witness for C2 at a concrete environment (no API key configured). -/
theorem analyzeDocument_fallback_eq_simulated_witness :
    remoteFails envKeyMissing ∧
    analyzeDocument envKeyMissing "hello world" none =
      generateSimulatedAnalysis "hello world" none :=
  ⟨Or.inl rfl,
   analyzeDocument_fallback_eq_simulated envKeyMissing "hello world" none
     (Or.inl rfl)⟩

/-! ## C6 — validity of the sentiment field -/

/-- The simulated sentiment always satisfies the data model; its score
even lies in `[-4/5, 4/5]`. -/
theorem simSentiment_valid (text : String) : sentimentValid (simSentiment text) := by
  unfold simSentiment sentimentValid
  have h1 : (0:ℚ) ≤ (sentimentHits positiveWords text : ℚ) /
      ((sentimentHits positiveWords text : ℚ) +
        (sentimentHits negativeWords text : ℚ) + 1) := by positivity
  have h2 : (0:ℚ) ≤ (sentimentHits negativeWords text : ℚ) /
      ((sentimentHits positiveWords text : ℚ) +
        (sentimentHits negativeWords text : ℚ) + 1) := by positivity
  by_cases hp : sentimentHits positiveWords text > sentimentHits negativeWords text
  · rw [if_pos hp]
    refine ⟨?_, ?_, Or.inl rfl, by norm_num, by norm_num⟩
    · exact le_trans (by norm_num) (le_min (by norm_num) h1)
    · exact le_trans (min_le_left _ _) (by norm_num)
  · rw [if_neg hp]
    by_cases hn : sentimentHits negativeWords text > sentimentHits positiveWords text
    · rw [if_pos hn]
      refine ⟨?_, ?_, Or.inr (Or.inl rfl), by norm_num, by norm_num⟩
      · rw [neg_le, neg_neg]
        exact le_trans (min_le_left _ _) (by norm_num)
      · exact le_trans (neg_nonpos_of_nonneg (le_min (by norm_num) h2)) (by norm_num)
    · rw [if_neg hn]
      exact ⟨by norm_num, by norm_num, Or.inr (Or.inr rfl), by norm_num, by norm_num⟩

/-- C6 (amended) — the sentiment of `analyzeDocument` satisfies the
data model on every fallback path; on a successful remote path the
provider's parsed `score`/`label`/`confidence` are passed through with
only falsy-defaulting (`|| 0`, `|| 'neutral'`, `|| 0.5`), so the
result satisfies the model exactly when those defaulted values do. -/
theorem analyzeDocument_sentiment_valid_on_fallback (env : AIEnv) (text : String)
    (fileName : Option String) :
    (remoteFails env →
      sentimentValid (analyzeDocument env text fileName).sentiment) ∧
    (∀ (s : String) (raw : RawAnalysis), configMissing env.apiKey = false →
      env.completion = .ok (some s) → ¬ (s = "") → env.parse s = some raw →
      (analyzeDocument env text fileName).sentiment =
        { score := jsOrQ (raw.sentiment.bind RawSentiment.score) 0,
          label := jsOrS (raw.sentiment.bind RawSentiment.label) "neutral",
          confidence := jsOrQ (raw.sentiment.bind RawSentiment.confidence) (1 / 2) }) := by
  constructor
  · intro h
    rw [analyzeDocument_fallback_core env text fileName h]
    exact simSentiment_valid text
  · intro s raw hk hc hs hp
    simp [analyzeDocument, hk, hc, hs, hp]

/-- Witness for the amended C6 at a concrete environment. -/
theorem analyzeDocument_sentiment_valid_on_fallback_witness :
    remoteFails envKeyMissing ∧
    sentimentValid (analyzeDocument envKeyMissing "great day" none).sentiment :=
  ⟨Or.inl rfl,
   (analyzeDocument_sentiment_valid_on_fallback envKeyMissing "great day" none).1
     (Or.inl rfl)⟩

/-- Counterexample to C6 as stated: a provider response whose parsed
sentiment has score 5 is passed through unvalidated, so the resulting
sentiment violates the data model. -/
theorem analyzeDocument_sentiment_passthrough_invalid :
    (analyzeDocument envBadSentiment "some text" none).sentiment.score = 5 ∧
    ¬ sentimentValid (analyzeDocument envBadSentiment "some text" none).sentiment := by
  constructor
  · rfl
  · intro h
    have := h.2.1
    rw [show (analyzeDocument envBadSentiment "some text" none).sentiment.score = 5 from rfl] at this
    norm_num at this

/-! ## C1 — embedding vector length -/

theorem fallbackEmbedding_length (rand : ℕ → ℚ) :
    (fallbackEmbedding rand).length = 1536 := by
  simp [fallbackEmbedding]

theorem fallbackEmbedding_range (rand : ℕ → ℚ)
    (hr : ∀ i, 0 ≤ rand i ∧ rand i < 1) :
    ∀ v ∈ fallbackEmbedding rand, -1 ≤ v ∧ v ≤ 1 := by
  intro v hv
  rw [fallbackEmbedding, List.mem_map] at hv
  obtain ⟨i, _, hi⟩ := hv
  obtain ⟨h0, h1⟩ := hr i
  constructor <;> [linarith [hi]; linarith [hi]]

/-- C1 (amended) — when the configuration is missing or the embeddings
call throws, `generateEmbeddings` returns the fallback vector of
exactly 1536 values, each in `[-1, 1]` (indeed in `[-1, 1)`) given the
`Math.random` contract; when the embeddings call succeeds, the
provider's vector is returned unchanged (`response.data[0]?.embedding
|| []`), so the result has 1536 entries only if the provider's did. -/
theorem generateEmbeddings_fallback_length (env : AIEnv) (text : String)
    (hr : ∀ i, 0 ≤ env.rand i ∧ env.rand i < 1) :
    ((configMissing env.apiKey = true ∨
        env.embedResp (truncateChars 8000 text) = .error ()) →
      (generateEmbeddings env text).length = 1536 ∧
      ∀ v ∈ generateEmbeddings env text, -1 ≤ v ∧ v ≤ 1) ∧
    (∀ r : Option (List ℚ), configMissing env.apiKey = false →
      env.embedResp (truncateChars 8000 text) = .ok r →
      generateEmbeddings env text = r.getD []) := by
  constructor
  · intro h
    by_cases hk : configMissing env.apiKey
    · rw [show generateEmbeddings env text = fallbackEmbedding env.rand by
        simp [generateEmbeddings, hk]]
      exact ⟨fallbackEmbedding_length env.rand, fallbackEmbedding_range env.rand hr⟩
    · rcases h with h | h
      · exact absurd h (by simpa using hk)
      · rw [show generateEmbeddings env text = fallbackEmbedding env.rand by
          simp [generateEmbeddings, hk, h]]
        exact ⟨fallbackEmbedding_length env.rand, fallbackEmbedding_range env.rand hr⟩
  · intro r hk h
    simp [generateEmbeddings, hk, h]

/-- Counterexample to C1 as stated: with a configured key and a
successful embeddings call whose response carries no embedding, the
code returns `[]` — a vector of length 0, not 1536.  The remote
success path performs no dimension check at all. -/
theorem generateEmbeddings_success_not_1536 :
    (generateEmbeddings envEmbedOkEmpty "text").length = 0 ∧
    (generateEmbeddings envEmbedOkEmpty "text").length ≠ 1536 := by
  decide

/-- Witness for the amended C1 at a concrete environment. -/
theorem generateEmbeddings_fallback_length_witness :
    (∀ i, 0 ≤ envKeyMissing.rand i ∧ envKeyMissing.rand i < 1) ∧
    ((generateEmbeddings envKeyMissing "hello").length = 1536 ∧
      ∀ v ∈ generateEmbeddings envKeyMissing "hello", -1 ≤ v ∧ v ≤ 1) := by
  have hr : ∀ i, 0 ≤ envKeyMissing.rand i ∧ envKeyMissing.rand i < 1 := by
    intro i
    constructor <;> norm_num [envKeyMissing]
  exact ⟨hr,
    (generateEmbeddings_fallback_length envKeyMissing "hello" hr).1 (Or.inl rfl)⟩

/-! ## C3 — the start-processing transition is not a check-and-set -/

/-- C3 — code bug: `processDocumentAI` writes `processing`
unconditionally (no condition on the current status) and executes the
analysis on every invocation: two invocations on the same pending
document perform the analysis twice, where the specification requires
a check-and-set on `pending` and exactly one run. -/
theorem processDocumentAI_double_run :
    (processDocumentAI envKeyMissing "text" none
        (processDocumentAI envKeyMissing "text" none docPending)).runs = 2 ∧
    (processDocumentAI envKeyMissing "text" none docPending).runs = 1 ∧
    (startProcessingWrite
        { docPending with status := PStatus.completed }).status =
      PStatus.processing :=
  ⟨rfl, rfl, rfl⟩

/-! ## C9 — cosine similarity guards -/

theorem simLoop_normA (b a : List ℚ) (i : ℕ) :
    (simLoop b a i).2.1 = some ((a.map (fun x => x * x)).sum) := by
  induction a generalizing i with
  | nil => rfl
  | cons x xs ih =>
    rw [simLoop]
    simp only [ih, List.map_cons, List.sum_cons, jmul, jadd]

theorem simLoop_normB_zero (b : List ℚ) (a : List ℚ) (i : ℕ)
    (h : ∀ j, j < a.length → b.get? (i + j) = some (0 : ℚ)) :
    (simLoop b a i).2.2 = some 0 := by
  induction a generalizing i with
  | nil => rfl
  | cons x xs ih =>
    rw [simLoop]
    have h0 : b.get? i = some 0 := by
      have := h 0 (Nat.succ_pos xs.length)
      rwa [Nat.add_zero] at this
    have hrest : (simLoop b xs (i + 1)).2.2 = some 0 := by
      apply ih
      intro j hj
      have := h (j + 1) (Nat.succ_lt_succ hj)
      rwa [show i + (j + 1) = i + 1 + j by omega] at this
    simp only [hrest, jget, h0, jmul, jadd]
    norm_num

theorem sumsq_zero (l : List ℚ) (h : ∀ x ∈ l, x = 0) :
    (l.map (fun x => x * x)).sum = 0 := by
  induction l with
  | nil => rfl
  | cons x xs ih =>
    rw [List.map_cons, List.sum_cons, h x (List.mem_cons_self x xs),
      ih (fun y hy => h y (List.mem_cons_of_mem x hy))]
    norm_num

/-- C9 (amended) — `calculateSimilarity` is total (it cannot throw or
divide by zero) and returns the number 0 whenever either embeddings
field is absent, or the first vector is empty or all zeros (its
accumulated norm is exactly zero), or the second vector is zero at
every index up to the first vector's length (its accumulated norm is
exactly zero).  The claim's remaining case — first vector with a
nonzero norm, second vector empty — instead yields `NaN` (see the
counterexample): the loop reads `otherDocument.embeddings[i]` out of
bounds, and `NaN !== 0` defeats the zero-norm guard. -/
theorem calculateSimilarity_zero_cases (a b : Option (List ℚ)) :
    (a = none → calculateSimilarity a b = .num 0) ∧
    (b = none → calculateSimilarity a b = .num 0) ∧
    (∀ la, a = some la → (∀ x ∈ la, x = 0) → ∀ lb, b = some lb →
        calculateSimilarity a b = .num 0) ∧
    (∀ la lb, a = some la → b = some lb →
        (∀ j, j < la.length → lb.get? j = some (0 : ℚ)) →
        calculateSimilarity a b = .num 0) := by
  refine ⟨?_, ?_, ?_, ?_⟩
  · intro h
    subst h
    cases b <;> rfl
  · intro h
    subst h
    cases a <;> rfl
  · intro la ha hz lb hb
    subst ha
    subst hb
    have hA : (simLoop lb la 0).2.1 = some 0 := by
      rw [simLoop_normA, sumsq_zero la hz]
    rw [calculateSimilarity]
    simp [hA]
  · intro la lb ha hb hz
    subst ha
    subst hb
    have hB : (simLoop lb la 0).2.2 = some 0 := by
      apply simLoop_normB_zero
      intro j hj
      rw [Nat.zero_add]
      exact hz j hj
    rw [calculateSimilarity]
    simp [hB]

/-- Counterexample to C9 as stated: a first vector `[1]` (nonzero
norm) against an empty second vector returns `NaN`, not 0 — the
out-of-bounds read `b[0]` is `undefined`, poisoning the accumulators. -/
theorem calculateSimilarity_empty_second_nan :
    calculateSimilarity (some [1]) (some []) = SimResult.nan ∧
    calculateSimilarity (some [1]) (some []) ≠ SimResult.num 0 := by
  constructor <;> simp [calculateSimilarity, simLoop, jget, jmul, jadd]

/-- Witness for the amended C9 at a concrete input. -/
theorem calculateSimilarity_zero_cases_witness :
    (∀ x ∈ [(0 : ℚ), 0], x = 0) ∧
    calculateSimilarity (some [(0 : ℚ), 0]) (some [1]) = .num 0 := by
  have h : ∀ x ∈ [(0 : ℚ), 0], x = 0 := by
    intro x hx
    rcases List.mem_cons.mp hx with h | h
    · exact h
    · rcases List.mem_cons.mp h with h | h
      · exact h
      · exact absurd h (List.not_mem_nil x)
  exact ⟨h,
    (calculateSimilarity_zero_cases (some [(0 : ℚ), 0]) (some [1])).2.2.1
      [(0 : ℚ), 0] rfl h [1] rfl⟩

/-! ## C8 — the popularity score is always in [0, 100] -/

theorem sum_bounds_of_range (l : List ℚ) (h : ∀ x ∈ l, -1 ≤ x ∧ x ≤ 1) :
    -(l.length : ℚ) ≤ l.sum ∧ l.sum ≤ (l.length : ℚ) := by
  induction l with
  | nil => simp
  | cons x xs ih =>
    obtain ⟨hx1, hx2⟩ := h x (List.mem_cons_self x xs)
    obtain ⟨ih1, ih2⟩ := ih (fun y hy => h y (List.mem_cons_of_mem x hy))
    rw [List.sum_cons, List.length_cons]
    push_cast
    constructor <;> linarith

/-- One `addTimelineEntry` call on a topic whose timeline sentiments
are all in `[-1, 1]`, with a new entry in `[-1, 1]`, keeps all
sentiments in range and yields a popularity score in `[0, 100]`. -/
theorem popularity_step (t : Topic) (e : TimelineEntry)
    (ht : ∀ x ∈ t.timeline, -1 ≤ x.sentiment ∧ x.sentiment ≤ 1)
    (he : -1 ≤ e.sentiment ∧ e.sentiment ≤ 1) :
    (∀ x ∈ (addTimelineEntry t e).timeline, -1 ≤ x.sentiment ∧ x.sentiment ≤ 1) ∧
    0 ≤ (addTimelineEntry t e).trendData.popularityScore ∧
    (addTimelineEntry t e).trendData.popularityScore ≤ 100 := by
  have hperm : (addTimelineEntry t e).timeline.Perm (t.timeline ++ [e]) :=
    List.perm_insertionSort _ _
  have hmem : ∀ x ∈ (addTimelineEntry t e).timeline,
      -1 ≤ x.sentiment ∧ x.sentiment ≤ 1 := by
    intro x hx
    rcases List.mem_append.mp (hperm.mem_iff.mp hx) with h | h
    · exact ht x h
    · rw [List.mem_singleton.mp h]
      exact he
  have hlen : 1 ≤ (addTimelineEntry t e).timeline.length := by
    rw [hperm.length_eq, List.length_append, List.length_singleton]
    omega
  have hrlen : 1 ≤ ((addTimelineEntry t e).timeline.take 5).length := by
    rw [List.length_take]
    omega
  have hrmem : ∀ q ∈ ((addTimelineEntry t e).timeline.take 5).map
      TimelineEntry.sentiment, -1 ≤ q ∧ q ≤ 1 := by
    intro q hq
    obtain ⟨x, hx, hxq⟩ := List.mem_map.mp hq
    rw [← hxq]
    exact hmem x (List.mem_of_mem_take hx)
  obtain ⟨hs1, hs2⟩ := sum_bounds_of_range _ hrmem
  rw [List.length_map] at hs1 hs2
  have hk : (0:ℚ) < (((addTimelineEntry t e).timeline.take 5).length : ℚ) := by
    exact_mod_cast Nat.lt_of_lt_of_le Nat.zero_lt_one hrlen
  have havg1 : -1 ≤ (((addTimelineEntry t e).timeline.take 5).map
      TimelineEntry.sentiment).sum /
        ((((addTimelineEntry t e).timeline.take 5).length : ℚ)) := by
    rw [le_div_iff₀ hk]
    linarith
  have havg2 : (((addTimelineEntry t e).timeline.take 5).map
      TimelineEntry.sentiment).sum /
        ((((addTimelineEntry t e).timeline.take 5).length : ℚ)) ≤ 1 := by
    rw [div_le_one hk]
    linarith
  have hact1 : (0:ℚ) ≤ min (((addTimelineEntry t e).timeline.length : ℚ) * 2) 50 := by
    apply le_min _ (by norm_num)
    positivity
  have hact2 : min (((addTimelineEntry t e).timeline.length : ℚ) * 2) 50 ≤ 50 :=
    min_le_right _ _
  have hpop : (addTimelineEntry t e).trendData.popularityScore =
      round (min (((addTimelineEntry t e).timeline.length : ℚ) * 2) 50 +
        ((((addTimelineEntry t e).timeline.take 5).map TimelineEntry.sentiment).sum /
          ((((addTimelineEntry t e).timeline.take 5).length : ℚ)) + 1) * 25) := rfl
  refine ⟨hmem, ?_, ?_⟩
  · rw [hpop, round_eq]
    apply Int.le_floor.mpr
    push_cast
    nlinarith
  · rw [hpop, round_eq]
    have hfl : ⌊min (((addTimelineEntry t e).timeline.length : ℚ) * 2) 50 +
        ((((addTimelineEntry t e).timeline.take 5).map TimelineEntry.sentiment).sum /
          ((((addTimelineEntry t e).timeline.take 5).length : ℚ)) + 1) * 25 + 1/2⌋ <
        (101 : ℤ) := by
      apply Int.floor_lt.mpr
      push_cast
      linarith
    omega

theorem addEntries_sentiment_range (es : List TimelineEntry) (t : Topic)
    (ht : ∀ x ∈ t.timeline, -1 ≤ x.sentiment ∧ x.sentiment ≤ 1)
    (hes : ∀ x ∈ es, -1 ≤ x.sentiment ∧ x.sentiment ≤ 1) :
    ∀ x ∈ (addEntries t es).timeline, -1 ≤ x.sentiment ∧ x.sentiment ≤ 1 := by
  induction es generalizing t with
  | nil => exact ht
  | cons e rest ih =>
    exact ih (addTimelineEntry t e)
      (popularity_step t e ht (hes e (List.mem_cons_self e rest))).1
      (fun x hx => hes x (List.mem_cons_of_mem e hx))

/-- C8 — for every starting topic whose timeline sentiments are in
`[-1, 1]` and every sequence of `addTimelineEntry` calls whose entries
have sentiments in `[-1, 1]`, the popularity score is an integer in
`[0, 100]` after every call of the sequence. -/
theorem popularityScore_bounded (t0 : Topic) (es : List TimelineEntry)
    (ht : ∀ x ∈ t0.timeline, -1 ≤ x.sentiment ∧ x.sentiment ≤ 1)
    (hes : ∀ x ∈ es, -1 ≤ x.sentiment ∧ x.sentiment ≤ 1) :
    ∀ n, n < es.length →
      0 ≤ (addEntries t0 (es.take (n + 1))).trendData.popularityScore ∧
      (addEntries t0 (es.take (n + 1))).trendData.popularityScore ≤ 100 := by
  intro n hn
  have hsplit : es.take (n + 1) = es.take n ++ [es[n]] := by
    rw [List.take_succ, List.getElem?_eq_getElem hn]
    rfl
  have hfold : addEntries t0 (es.take (n + 1)) =
      addTimelineEntry (addEntries t0 (es.take n)) es[n] := by
    rw [hsplit, addEntries, List.foldl_append]
    rfl
  rw [hfold]
  have hpre : ∀ x ∈ (addEntries t0 (es.take n)).timeline,
      -1 ≤ x.sentiment ∧ x.sentiment ≤ 1 :=
    addEntries_sentiment_range (es.take n) t0 ht
      (fun x hx => hes x (List.mem_of_mem_take hx))
  exact (popularity_step (addEntries t0 (es.take n)) es[n] hpre
    (hes es[n] (List.getElem_mem hn))).2

/-- Witness for C8 at a concrete topic and entry sequence. -/
theorem popularityScore_bounded_witness :
    (∀ x ∈ emptyTopic.timeline, -1 ≤ x.sentiment ∧ x.sentiment ≤ 1) ∧
    (∀ x ∈ [mkEntry 1 1, mkEntry 2 (-1)], -1 ≤ x.sentiment ∧ x.sentiment ≤ 1) ∧
    (1 < ([mkEntry 1 1, mkEntry 2 (-1)] : List TimelineEntry).length) ∧
    (0 ≤ (addEntries emptyTopic
        ([mkEntry 1 1, mkEntry 2 (-1)].take 2)).trendData.popularityScore ∧
      (addEntries emptyTopic
        ([mkEntry 1 1, mkEntry 2 (-1)].take 2)).trendData.popularityScore ≤ 100) := by
  have h1 : ∀ x ∈ emptyTopic.timeline, -1 ≤ x.sentiment ∧ x.sentiment ≤ 1 := by
    intro x hx
    exact absurd hx (List.not_mem_nil x)
  have h2 : ∀ x ∈ [mkEntry 1 1, mkEntry 2 (-1)],
      -1 ≤ x.sentiment ∧ x.sentiment ≤ 1 := by
    intro x hx
    rcases List.mem_cons.mp hx with h | h
    · rw [h]
      constructor <;> norm_num [mkEntry]
    · rcases List.mem_cons.mp h with h | h
      · rw [h]
        constructor <;> norm_num [mkEntry]
      · exact absurd h (List.not_mem_nil x)
  exact ⟨h1, h2, by norm_num,
    popularityScore_bounded emptyTopic [mkEntry 1 1, mkEntry 2 (-1)] h1 h2 1
      (by norm_num)⟩

/-! ## C5 and C10 — the embedding-dimension persistence guard -/

theorem preSaveReadingTime_embeddings (d : StoredDoc) :
    (preSaveReadingTime d).embeddings = d.embeddings := by
  rw [preSaveReadingTime]
  by_cases h : d.wordCountModified <;> simp [h]

/-- Helper: on the `document.save()` path, an embeddings vector that
is present and non-empty with a length other than 1536 fails with the
dimension error and nothing is stored. -/
theorem saveDocument_rejects_bad_dimension (d : StoredDoc) (e : List ℚ)
    (he : d.embeddings = some e) (hpos : 0 < e.length)
    (hne : e.length ≠ 1536) :
    saveDocument d = .error dimensionErrorMsg := by
  rw [saveDocument, show (preSaveReadingTime d).embeddings = some e from
    (preSaveReadingTime_embeddings d).trans he, preSaveEmbeddingsCheck]
  rw [if_pos ⟨hpos, hne⟩]

/-- C5 — code bug: the dimension guard exists only as `pre('save')`
middleware, but the repository's live embeddings-persistence path —
`Document.findByIdAndUpdate` in `processDocumentAI`
(`documents.ts:239-253`) — is a mongoose query update that runs no
`pre('save')` document middleware, so a 100-length provider vector is
silently stored and the document marked `completed`; only the
`document.save()` path rejects it with the dimension error, while the
claim (and spec sections 7 and 8) require rejection at every point of
persistence. -/
theorem embeddings_dimension_guard_bypassed :
    (processDocumentAI envEmbed100 "text" none docPending).embeddings =
      some (List.replicate 100 (0 : ℚ)) ∧
    (processDocumentAI envEmbed100 "text" none docPending).status =
      PStatus.completed ∧
    saveDocument storedDoc100 = .error dimensionErrorMsg := by
  refine ⟨?_, rfl, saveDocument_rejects_bad_dimension storedDoc100
    (List.replicate 100 0) rfl (by simp) (by simp)⟩
  show some (generateEmbeddings envEmbed100 "text") = _
  with_unfolding_all rfl

/-- C10 — a document whose embeddings array is empty is always
accepted at persistence: the dimension validation requires
`length > 0`, so the empty array (the stored representation of
"absent" embeddings, the schema default) never triggers the dimension
error. -/
theorem saveDocument_accepts_empty_embeddings (d : StoredDoc)
    (he : d.embeddings = some []) :
    saveDocument d = .ok (preSaveReadingTime d) := by
  rw [saveDocument, show (preSaveReadingTime d).embeddings = some [] from
    (preSaveReadingTime_embeddings d).trans he, preSaveEmbeddingsCheck]
  rw [if_neg (by simp)]

/-- Witness for C10 at a concrete stored document. -/
theorem saveDocument_accepts_empty_embeddings_witness :
    storedDocEmptyEmb.embeddings = some [] ∧
    saveDocument storedDocEmptyEmb = .ok (preSaveReadingTime storedDocEmptyEmb) :=
  ⟨rfl, saveDocument_accepts_empty_embeddings storedDocEmptyEmb rfl⟩
